import Mathlib

/-!
Verification model of the GravityRemote bridge server.

The definitions below are a shallow embedding of two source files:
* `cdp_bridge.mjs` — the `CdpBridge` class: the protocol connection manager
  (`send`, `handleMessage`, `cleanup`, `scheduleReconnect`) and the
  multi-context executor (`injectMessage`, `tryInjectAnyContext`);
* `server.mjs` — the action-queue processor (the `setInterval` tick and
  `POST /api/queue`) and the delegation supervisor
  (`POST /api/delegation`, `GET /api/delegation`, `complete`, `accept`).

JavaScript machine details are made explicit: timestamps are naturals
(milliseconds since epoch), JS `Map`s become insertion-ordered association
lists, absent object keys become `Option`, and JS truthiness guards
(`msg.id`, `!text`, `timeout_ms || 300000`) are translated literally.
Functions that in the source perform I/O (resolving promises, broadcasting
events, setting timers) instead return the visible effects explicitly
(lists of outcomes/events) next to the successor state.
-/

namespace Gravity

/-! ## CDP bridge: connection manager (`cdp_bridge.mjs`) -/

/-- Execution-context info delivered by `Runtime.executionContextCreated`
(`msg.params.context`): we keep the `id` and the `name`/`origin` field. -/
structure CtxInfo where
  id : Nat
  name : String
  deriving DecidableEq, Repr

/-- State of the `CdpBridge` class (constructor, lines 134–142 of
`cdp_bridge.mjs`): `ws` tracks whether a socket object is present,
`contexts` is the JS `Map` (insertion-ordered association list),
`reconnectTimer` is whether a reconnect timer is currently pending, and
`pendingRequests` holds the ids of the registered `{resolve, reject}`
entries in insertion order. `requestId` starts at 1. -/
structure CdpBridge where
  ws : Bool
  contexts : List (Nat × CtxInfo)
  isConnected : Bool
  reconnectTimer : Bool
  requestId : Nat
  pendingRequests : List Nat
  deriving DecidableEq, Repr

/-- The freshly constructed bridge. -/
def CdpBridge.init : CdpBridge :=
  { ws := false, contexts := [], isConnected := false,
    reconnectTimer := false, requestId := 1, pendingRequests := [] }

/-- JS `Map.set`: replace in place if the key exists, else append
(JS `Map` preserves insertion order). -/
def mapSet (m : List (Nat × CtxInfo)) (k : Nat) (v : CtxInfo) : List (Nat × CtxInfo) :=
  if m.any (fun p => p.1 = k) then
    m.map (fun p => if p.1 = k then (k, v) else p)
  else m ++ [(k, v)]

/-- JS `Map.delete`: remove the entry with the given key. -/
def mapDelete (m : List (Nat × CtxInfo)) (k : Nat) : List (Nat × CtxInfo) :=
  m.filter (fun p => ¬ p.1 = k)

/-- Result of a `send` call: either the allocated request id (the promise
is registered as pending) or the immediate `Not connected` rejection. -/
inductive SendResult where
  | allocated (id : Nat)
  | notConnected
  deriving DecidableEq, Repr

/-- `CdpBridge.send(method, params)` (lines 248–257): reject with
`Not connected` if `!this.isConnected || !this.ws`; otherwise allocate
`id = this.requestId++`, register the pending entry, and write the frame
`{id, method, params}` to the socket.  The method/params only travel on
the wire, so the model returns the state and the allocation outcome. -/
def CdpBridge.send (s : CdpBridge) : CdpBridge × SendResult :=
  if ¬ s.isConnected ∨ ¬ s.ws then
    (s, .notConnected)
  else
    let id := s.requestId
    ({ s with requestId := s.requestId + 1,
              pendingRequests := s.pendingRequests ++ [id] }, .allocated id)

/-- An inbound wire frame, `JSON.parse`d: a response carries `id` and
either `error` or `result`; a notification carries `method` and params.
`ctx` is `params.context` for `executionContextCreated`, `ctxId` is
`params.executionContextId` for `executionContextDestroyed`. -/
structure Frame where
  id : Option Nat
  error : Option String
  result : Option String
  method : Option String
  ctx : Option CtxInfo
  ctxId : Option Nat
  deriving DecidableEq, Repr

/-- Visible effect of handling one frame: resolving or rejecting the
pending promise with the given id (rejection carries the error payload,
resolution the result payload). -/
inductive Outcome where
  | resolved (id : Nat) (result : Option String)
  | rejected (id : Nat) (err : String)
  deriving DecidableEq, Repr

/-- The notification part of `CdpBridge.handleMessage`
(`cdp_bridge.mjs` lines 273–283): `executionContextCreated` inserts into
the registry, `executionContextDestroyed` deletes by id,
`executionContextsCleared` empties it. -/
def CdpBridge.handleEvent (s : CdpBridge) (f : Frame) : CdpBridge :=
  if f.method = some "Runtime.executionContextCreated" then
    match f.ctx with
    | some c => { s with contexts := mapSet s.contexts c.id c }
    | none => s
  else if f.method = some "Runtime.executionContextDestroyed" then
    match f.ctxId with
    | some i => { s with contexts := mapDelete s.contexts i }
    | none => s
  else if f.method = some "Runtime.executionContextsCleared" then
    { s with contexts := [] }
  else s

/-- `CdpBridge.handleMessage` (lines 259–288).  Responses: if `msg.id` is
truthy (present and non-zero) and a pending entry exists for it, that
entry is deleted from the map and then rejected (if `msg.error`) or
resolved — and the handler returns.  Frames that are not matched
responses fall through to the notification checks (`handleEvent`). -/
def CdpBridge.handleMessage (s : CdpBridge) (f : Frame) : CdpBridge × List Outcome :=
  match f.id with
  | some i =>
    if i ≠ 0 ∧ s.pendingRequests.contains i then
      ({ s with pendingRequests := s.pendingRequests.erase i },
       match f.error with
       | some e => [.rejected i e]
       | none => [.resolved i f.result])
    else
      (s.handleEvent f, [])
  | none => (s.handleEvent f, [])

/-- `CdpBridge.cleanup` (lines 194–203): mark disconnected, clear the
context registry, drop the socket, reject every pending request with
`Connection closed` (one rejection per entry, in map order), and clear
the pending map. -/
def CdpBridge.cleanup (s : CdpBridge) : CdpBridge × List Outcome :=
  ({ s with isConnected := false, contexts := [], ws := false,
            pendingRequests := [] },
   s.pendingRequests.map (fun i => .rejected i "Connection closed"))

/-- `CdpBridge.scheduleReconnect` (lines 186–192): if a reconnect timer is
already pending, return without creating another; otherwise arm one
5000 ms timer. -/
def CdpBridge.scheduleReconnect (s : CdpBridge) : CdpBridge :=
  if s.reconnectTimer then s else { s with reconnectTimer := true }

/-- The WebSocket `close` handler (lines 169–173): `cleanup()` then
`scheduleReconnect()`.  (The `error` handler only logs; the subsequent
`close` event triggers this path.) -/
def CdpBridge.onClose (s : CdpBridge) : CdpBridge × List Outcome :=
  let (s1, outs) := s.cleanup
  (s1.scheduleReconnect, outs)

/-- Run a sequence of `send` calls, collecting the allocation outcomes. -/
def CdpBridge.sendMany (s : CdpBridge) : Nat → CdpBridge × List SendResult
  | 0 => (s, [])
  | n + 1 =>
    let (s1, r) := s.send
    let (s2, rs) := s1.sendMany n
    (s2, r :: rs)

/-! ## CDP bridge: multi-context executor (`cdp_bridge.mjs` 299–357) -/

/-- A structured JS result object as produced by the injected expressions
and by the executor itself: fields `ok`, `reason`, `error`, `method`;
absent keys are `none`. -/
structure JsObj where
  ok : Bool
  reason : Option String
  error : Option String
  method : Option String
  deriving DecidableEq, Repr

/-- Outcome of evaluating the cheap probe expression in one context:
the `send` promise rejected (caught by the `try`), or it produced the
boolean `check.result.value`. -/
inductive ProbeRes where
  | threw
  | val (b : Bool)
  deriving DecidableEq, Repr

/-- Outcome of evaluating the full action expression in one context:
the `send` promise rejected, or `result.result.value` was absent/falsy,
or it was the structured object `v`. -/
inductive ActionRes where
  | threw
  | noValue
  | val (v : JsObj)
  deriving DecidableEq, Repr

/-- What one execution context would answer during one sweep: the probe
outcome and (if the probe is reached and true) the action outcome. -/
structure CtxEval where
  probe : ProbeRes
  action : ActionRes
  deriving DecidableEq, Repr

/-- The `for (const contextId of contextIds.reverse())` loop body of
`tryInjectAnyContext` (lines 326–355), iterating over the already
reversed context list.  Besides the returned object, the model records
the ids of the contexts in which the action expression was actually
evaluated, in evaluation order (the source does not log these; the
second component only instruments the same control flow). -/
def trySweepGo : List (Nat × CtxEval) → JsObj × List Nat
  | [] => (⟨false, none, some "not_found", none⟩, [])
  | (cid, ev) :: rest =>
    match ev.probe with
    | .threw => trySweepGo rest
    | .val false => trySweepGo rest
    | .val true =>
      match ev.action with
      | .threw => let r := trySweepGo rest; (r.1, cid :: r.2)
      | .noValue => let r := trySweepGo rest; (r.1, cid :: r.2)
      | .val v =>
        if v.ok then (v, [cid])
        else if v.reason = some "busy_cancel_visible" then
          (⟨false, none, some "busy", none⟩, [cid])
        else
          let r := trySweepGo rest; (r.1, cid :: r.2)

/-- `CdpBridge.tryInjectAnyContext` (lines 321–357): empty registry gives
`no_contexts`; otherwise sweep the contexts later-first; an `ok` action
value is returned as-is, a `busy_cancel_visible` reason becomes
`{ok:false, error:'busy'}` immediately, anything else falls through to
`not_found`. -/
def tryInjectAnyContext (ctxs : List (Nat × CtxEval)) : JsObj × List Nat :=
  if ctxs.length = 0 then (⟨false, none, some "no_contexts", none⟩, [])
  else trySweepGo ctxs.reverse

/-- Trace of one `injectMessage` call: the returned object, the number of
`tryInjectAnyContext` invocations (sweeps over the context list), which
(call index, context id) pairs had the action expression evaluated, and
the list of `setTimeout` pauses in ms. -/
structure InjectRun where
  result : JsObj
  sweeps : Nat
  actions : List (Nat × Nat)
  waits : List Nat
  deriving DecidableEq, Repr

/-- The `for (let i = 0; i < attempts; i++)` loop of `injectMessage`
(lines 302–316).  `ev c` is the context registry as seen by the `c`-th
`tryInjectAnyContext` call (the registry may change between calls as
context notifications arrive); `c` is the next call index and the fuel
counts the remaining iterations (3 at the top call).  Per iteration:
sweep; return on `ok` or on `error == 'busy'`; wait 1000 ms; sweep
again; return on `ok` only; else next iteration.  After the last
iteration: `{ok:false, error:'editor_not_found_in_any_context'}`. -/
def injectGo (ev : Nat → List (Nat × CtxEval)) : Nat → Nat → InjectRun
  | _, 0 => ⟨⟨false, none, some "editor_not_found_in_any_context", none⟩, 0, [], []⟩
  | c, n + 1 =>
    let r1 := tryInjectAnyContext (ev c)
    if r1.1.ok then ⟨r1.1, 1, r1.2.map (fun i => (c, i)), []⟩
    else if r1.1.error = some "busy" then ⟨r1.1, 1, r1.2.map (fun i => (c, i)), []⟩
    else
      let r2 := tryInjectAnyContext (ev (c + 1))
      if r2.1.ok then
        ⟨r2.1, 2, r1.2.map (fun i => (c, i)) ++ r2.2.map (fun i => (c + 1, i)), [1000]⟩
      else
        let rest := injectGo ev (c + 2) n
        ⟨rest.result, 2 + rest.sweeps,
         r1.2.map (fun i => (c, i)) ++ r2.2.map (fun i => (c + 1, i)) ++ rest.actions,
         1000 :: rest.waits⟩

/-- `CdpBridge.injectMessage` (lines 299–319): `not_connected` when the
bridge is disconnected, else the 3-attempt loop starting at call 0. -/
def injectMessage (isConnected : Bool) (ev : Nat → List (Nat × CtxEval)) : InjectRun :=
  if isConnected then injectGo ev 0 3
  else ⟨⟨false, none, some "not_connected", none⟩, 0, [], []⟩

/-! ## Server state, action queue and delegations (`server.mjs`) -/

/-- One entry of `STATE.actionQueue`.  `POST /api/queue` pushes
`{id, text, from, addedAt}` (no `model` key, hence `none`); the
delegation dispatcher pushes `{id, text, from:'delegation', model,
addedAt}`.  Timestamps are ms since epoch. -/
structure ActionItem where
  id : String
  text : String
  «from» : String
  model : Option String
  addedAt : Nat
  deriving DecidableEq, Repr

/-- `STATE.agent`. -/
structure AgentState where
  state : String
  lastSeen : Option Nat
  task : String
  busy : Bool
  deriving DecidableEq, Repr

/-- One entry of `STATE.delegations` as built by `POST /api/delegation`
(lines 397–411).  The `acceptedAt` key does not exist until `accept`
stamps it, so it is an `Option` starting at `none`. -/
structure Delegation where
  id : String
  target_tab : String
  task : String
  model : Option String
  modelIndex : Option Nat
  priority : String
  timeout_ms : Nat
  status : String
  createdAt : Nat
  startedAt : Option Nat
  completedAt : Option Nat
  acceptedAt : Option Nat
  result : Option String
  error : Option String
  deriving DecidableEq, Repr

/-- The parts of `STATE` the verified operations touch. -/
structure ServerState where
  actionQueue : List ActionItem
  agent : AgentState
  delegations : List Delegation
  deriving DecidableEq, Repr

/-- Events published through `broadcast(event, payload)`. -/
inductive Event where
  | queue_update (count : Nat) (lastAction : Option String)
  | agent_state (busy : Bool)
  | delegation_update (d : Delegation)
  deriving DecidableEq, Repr

/-- Result of `POST /api/queue`. -/
inductive EnqueueResult where
  | ok (position : Nat)
  | missingText
  deriving DecidableEq, Repr

/-- `POST /api/queue` (lines 323–338): reject a falsy `text`; otherwise
push `{id, text, from: from || 'api', addedAt}` onto the queue tail,
broadcast `queue_update{count}` and answer with the new length as the
position. -/
def enqueue (s : ServerState) (text : String) (fr : Option String)
    (newId : String) (now : Nat) : ServerState × EnqueueResult × List Event :=
  if text = "" then (s, .missingText, [])
  else
    let origin := match fr with
      | some f => if f = "" then "api" else f
      | none => "api"
    let q := s.actionQueue ++ [⟨newId, text, origin, none, now⟩]
    ({ s with actionQueue := q }, .ok q.length, [.queue_update q.length none])

/-- One firing of the queue-processor `setInterval` (lines 286–318),
with the outcome of `cdpBridge.injectMessage(action.text)` supplied as
`injection`.  If the queue is non-empty and the agent is not busy:
success shifts the head and broadcasts `queue_update{count,'success'}`;
a `busy` error sets `agent.busy = true` and broadcasts
`agent_state{busy:true}` without shifting; any other failure shifts
(drops) the head silently.  Otherwise the tick does nothing. -/
def tick (s : ServerState) (injection : JsObj) : ServerState × List Event :=
  if 0 < s.actionQueue.length ∧ s.agent.busy = false then
    if injection.ok then
      let q := s.actionQueue.tail
      ({ s with actionQueue := q }, [.queue_update q.length (some "success")])
    else if injection.error = some "busy" then
      ({ s with agent := { s.agent with busy := true } }, [.agent_state true])
    else
      ({ s with actionQueue := s.actionQueue.tail }, [])
  else (s, [])

/-- Run consecutive ticks, one injection outcome per tick, concatenating
the broadcast events. -/
def runTicks (s : ServerState) : List JsObj → ServerState × List Event
  | [] => (s, [])
  | inj :: rest =>
    let t := tick s inj
    let r := runTicks t.1 rest
    (r.1, t.2 ++ r.2)

/-! ## Delegation supervisor (`server.mjs` 367–551) -/

/-- One entry of the static model catalog. -/
structure ModelInfo where
  index : Nat
  name : String
  key : String
  deriving DecidableEq, Repr

/-- `AVAILABLE_MODELS` (lines 367–375). -/
def AVAILABLE_MODELS : List ModelInfo :=
  [⟨0, "Gemini 3 Pro (High)", "gemini-pro-high"⟩,
   ⟨1, "Gemini 3 Pro (Low)", "gemini-pro-low"⟩,
   ⟨2, "Gemini 3 Flash", "gemini-flash"⟩,
   ⟨3, "Claude Sonnet 4.5", "claude-sonnet"⟩,
   ⟨4, "Claude Sonnet 4.5 (Thinking)", "claude-sonnet-thinking"⟩,
   ⟨5, "Claude Opus 4.5 (Thinking)", "claude-opus-thinking"⟩,
   ⟨6, "GPT-OSS 120B (Medium)", "gpt-oss-120b"⟩]

/-- JS `toLowerCase()`: per-character lowercasing of the string's
characters (all catalog names, keys and selectors are ASCII).  Defined
by a structural `List.map` — Lean's own `String.toLower` recurses on
UTF-8 positions and does not evaluate by kernel reduction. -/
def jsToLower (s : String) : String := ⟨s.data.map Char.toLower⟩

/-- JS `haystack.includes(needle)` on strings: the needle's character
list occurs as a contiguous infix of the haystack's. -/
def jsIncludes (haystack needle : String) : Bool :=
  decide (needle.data <:+: haystack.data)

/-- The request's `model` field: a JSON number or string (or absent). -/
inductive ModelSelector where
  | num (n : Nat)
  | str (s : String)
  deriving DecidableEq, Repr

/-- Model resolution in `POST /api/delegation` (lines 384–395): a number
resolves by `m.index === model`; a string by
`m.name.toLowerCase().includes(model.toLowerCase()) ||
m.key.toLowerCase() === model.toLowerCase()`; `find` keeps the first
match; no match (or no selector) leaves `modelInfo = null`. -/
def resolveModel : Option ModelSelector → Option ModelInfo
  | none => none
  | some (.num n) => AVAILABLE_MODELS.find? (fun m => m.index = n)
  | some (.str q) =>
    AVAILABLE_MODELS.find? (fun m =>
      jsIncludes (jsToLower m.name) (jsToLower q) || jsToLower m.key = jsToLower q)

/-- The `push` + cap of lines 413–414: append, then `shift()` (drop the
oldest, i.e. the head) when the length exceeds 50. -/
def capDelegations (l : List Delegation) : List Delegation :=
  if 50 < l.length then l.tail else l

/-- Result of `POST /api/delegation`. -/
inductive CreateResult where
  | ok (d : Delegation)
  | missingTargetOrTask
  deriving DecidableEq, Repr

/-- The record literal of lines 397–411: a fresh delegation in status
`pending`, with fields derived from the request body (`priority ||
'normal'`, `timeout_ms || 300000`) and the resolved model. -/
def pendingRecord (target_tab task : String) (priority : Option String)
    (timeout_ms : Option Nat) (modelInfo : Option ModelInfo)
    (newId : String) (now : Nat) : Delegation :=
  { id := newId, target_tab := target_tab, task := task,
    model := modelInfo.map (fun m => m.name),
    modelIndex := modelInfo.map (fun m => m.index),
    priority := match priority with
      | some p => if p = "" then "normal" else p
      | none => "normal",
    timeout_ms := match timeout_ms with
      | some t => if t = 0 then 300000 else t
      | none => 300000,
    status := "pending", createdAt := now, startedAt := none,
    completedAt := none, acceptedAt := none, result := none,
    error := none }

/-- `POST /api/delegation` (lines 378–481), with the outcome of
`cdpBridge.focusTab(target_tab)` supplied as `focusOk`/`focusErr`.
Guard falsy `target_tab`/`task`; resolve the model; build the `pending`
record; push it and cap the collection at 50.  Focus failure flips the
record to `failed` (with a `Tab focus failed: …` message) and returns
without queuing.  Otherwise — after the best-effort, failure-swallowed
model switch, which has no state effect — the record becomes
`in_progress` with `startedAt = now` and a corresponding item is pushed
onto the action queue.  The record is mutated in place in the source, so
the stored collection holds its final version. -/
def createDelegation (s : ServerState) (target_tab task : String)
    (priority : Option String) (timeout_ms : Option Nat)
    (model : Option ModelSelector) (newId : String) (now : Nat)
    (focusOk : Bool) (focusErr : String) :
    ServerState × CreateResult × List Event :=
  if target_tab = "" ∨ task = "" then (s, .missingTargetOrTask, [])
  else
    let modelInfo := resolveModel model
    let pending := pendingRecord target_tab task priority timeout_ms modelInfo newId now
    if focusOk then
      let started := { pending with status := "in_progress", startedAt := some now }
      let item : ActionItem := ⟨newId, task, "delegation",
        modelInfo.map (fun m => m.name), now⟩
      ({ s with delegations := capDelegations (s.delegations ++ [started]),
                actionQueue := s.actionQueue ++ [item] },
       .ok started, [.delegation_update started])
    else
      let failed := { pending with
        status := "failed",
        error := some ("Tab focus failed: " ++ focusErr) }
      ({ s with delegations := capDelegations (s.delegations ++ [failed]) },
       .ok failed, [.delegation_update failed])

/-- `if (id) items = items.filter(...)` — an absent or empty (falsy)
query parameter skips the filter. -/
def idMatches (idf : Option String) (d : Delegation) : Bool :=
  match idf with
  | some i => if i = "" then true else d.id = i
  | none => true

/-- `if (status) items = items.filter(...)`. -/
def statusMatches (statusf : Option String) (d : Delegation) : Bool :=
  match statusf with
  | some st => if st = "" then true else d.status = st
  | none => true

/-- JS `Math.round(elapsed / 1000)` for a nonnegative integer `elapsed`. -/
def jsRoundDiv1000 (elapsed : Nat) : Nat := (elapsed + 500) / 1000

/-- The body of the lazy-timeout loop in `GET /api/delegation`
(lines 491–500): a record that is `in_progress` with a truthy
`startedAt` and `now − startedAt > timeout_ms` flips to `timeout` with
the elapsed-time error message. -/
def sweepOne (now : Nat) (d : Delegation) : Delegation :=
  if d.status = "in_progress" then
    match d.startedAt with
    | some t =>
      if (d.timeout_ms : Int) < (now : Int) - (t : Int) then
        { d with status := "timeout",
                 error := some ("Timeout after " ++
                   toString (jsRoundDiv1000 (now - t)) ++ "s") }
      else d
    | none => d
  else d

/-- The response body of `GET /api/delegation`: the (possibly flipped)
filtered records and the per-status summary counts; `failed` counts both
`failed` and `timeout` records. -/
structure ListResponse where
  delegations : List Delegation
  pending : Nat
  in_progress : Nat
  completed : Nat
  failed : Nat
  deriving DecidableEq, Repr

/-- `GET /api/delegation` (lines 484–512).  `items` is filtered from the
collection by the (truthy) `id` and `status` query parameters *before*
the sweep; the timeout loop then runs over `items` only, mutating the
shared record objects — so exactly the records that pass the filter are
swept, and the summary (computed afterwards over the whole collection)
sees the flipped statuses. -/
def listDelegations (s : ServerState) (idf statusf : Option String)
    (now : Nat) : ServerState × ListResponse :=
  let applies : Delegation → Bool :=
    fun d => idMatches idf d && statusMatches statusf d
  let newDs := s.delegations.map (fun d => if applies d then sweepOne now d else d)
  let items := (s.delegations.filter applies).map (sweepOne now)
  ({ s with delegations := newDs },
   { delegations := items,
     pending := (newDs.filter (fun d => d.status = "pending")).length,
     in_progress := (newDs.filter (fun d => d.status = "in_progress")).length,
     completed := (newDs.filter (fun d => d.status = "completed")).length,
     failed := (newDs.filter (fun d =>
       d.status = "failed" ∨ d.status = "timeout")).length })

/-- A `res.json` body of the accept endpoint: `{ok, error?, delegation?}`. -/
structure ApiResp where
  ok : Bool
  error : Option String
  delegation : Option Delegation
  deriving DecidableEq, Repr

/-- Replace the first element satisfying `p` (the one `Array.find` hands
out and the handler mutates). -/
def updateFirst (p : α → Bool) (f : α → α) : List α → List α
  | [] => []
  | a :: as => if p a then f a :: as else a :: updateFirst p f as

/-- `POST /api/delegation/:id/accept` (lines 533–551): `not_found` when
no record has the id; `{ok:false, error:'already_completed'}` — leaving
the record untouched — when its status is `completed`; otherwise force
`status = 'in_progress'`, stamp `acceptedAt`, reset `startedAt` to now
(restarting the timeout clock), and broadcast the update. -/
def acceptDelegation (s : ServerState) (id : String) (now : Nat) :
    ServerState × ApiResp × List Event :=
  match s.delegations.find? (fun d => d.id = id) with
  | none => (s, ⟨false, some "not_found", none⟩, [])
  | some d =>
    if d.status = "completed" then
      (s, ⟨false, some "already_completed", none⟩, [])
    else
      let d' := { d with status := "in_progress", acceptedAt := some now,
                         startedAt := some now }
      ({ s with delegations :=
           updateFirst (fun x => x.id = id) (fun _ => d') s.delegations },
       ⟨true, none, some d'⟩, [.delegation_update d'])

/-! ## Helper lemmas -/

/-- `range' r n` is a strictly increasing chain. -/
theorem chain_lt_range' (r n : Nat) : List.Chain' (· < ·) (List.range' r n) := by
  induction n generalizing r with
  | zero => simp
  | succ n ih =>
    rw [List.range'_succ]
    cases n with
    | zero => simp
    | succ m =>
      rw [List.range'_succ]
      exact List.Chain'.cons (by omega) (by rw [← List.range'_succ]; exact ih (r + 1))

/-- A connected `send` steps the id counter and appends the pending id. -/
theorem send_eq_of_connected (s : CdpBridge) (h1 : s.isConnected = true)
    (h2 : s.ws = true) :
    s.send = ({ s with requestId := s.requestId + 1,
                       pendingRequests := s.pendingRequests ++ [s.requestId] },
              .allocated s.requestId) := by
  unfold CdpBridge.send
  simp [h1, h2]

/-- While connected, `sendMany` allocates consecutive ids starting at the
current counter. -/
theorem sendMany_ids (s : CdpBridge) (n : Nat) (h1 : s.isConnected = true)
    (h2 : s.ws = true) :
    (s.sendMany n).2 = (List.range' s.requestId n).map .allocated := by
  induction n generalizing s with
  | zero => simp [CdpBridge.sendMany]
  | succ n ih =>
    rw [CdpBridge.sendMany, send_eq_of_connected s h1 h2, List.range'_succ]
    simp only [List.map_cons]
    rw [← ih { s with requestId := s.requestId + 1,
                      pendingRequests := s.pendingRequests ++ [s.requestId] }
          h1 h2]

/-- A frame whose id matches a pending entry consumes exactly that entry. -/
theorem handleMessage_matched (s : CdpBridge) (f : Frame) (i : Nat)
    (hid : f.id = some i) (hnz : i ≠ 0) (hmem : i ∈ s.pendingRequests) :
    s.handleMessage f =
      ({ s with pendingRequests := s.pendingRequests.erase i },
       match f.error with
       | some e => [.rejected i e]
       | none => [.resolved i f.result]) := by
  have hc : s.pendingRequests.contains i = true := List.elem_iff.mpr hmem
  unfold CdpBridge.handleMessage
  rw [hid]
  exact if_pos ⟨hnz, hc⟩

/-- A frame whose id is absent, zero, or not pending only feeds the
notification handler and emits no outcome. -/
theorem handleMessage_unmatched (s : CdpBridge) (f : Frame)
    (h : ∀ i, f.id = some i → i = 0 ∨ i ∉ s.pendingRequests) :
    s.handleMessage f = (s.handleEvent f, []) := by
  unfold CdpBridge.handleMessage
  cases hid : f.id with
  | none => rfl
  | some i =>
    rcases h i hid with h0 | hn
    · exact if_neg (fun hcond => hcond.1 h0)
    · exact if_neg (fun hcond => hn (List.elem_iff.mp hcond.2))

/-! ## C1 — request/response correlation -/

/-- **C1.** On one live session: every `send` allocates the current
counter value as its id, bumps the counter, and registers the id as
pending, so a sequence of `n` sends allocates the strictly increasing
ids `requestId, requestId+1, …`; an inbound frame whose (truthy) id
matches a pending entry emits exactly one outcome — a rejection when the
frame carries an error payload, a resolution otherwise — for exactly
that id, removes it from the pending map, leaves every other pending id
untouched, and (the map being duplicate-free) a second frame with the
same id produces no outcome at all; a disconnected bridge answers
`notConnected`. -/
theorem C1_request_response_correlation :
    (∀ s : CdpBridge, s.isConnected = true → s.ws = true →
      s.send = ({ s with requestId := s.requestId + 1,
                         pendingRequests := s.pendingRequests ++ [s.requestId] },
                .allocated s.requestId)) ∧
    (∀ s : CdpBridge, s.isConnected = false ∨ s.ws = false →
      s.send = (s, .notConnected)) ∧
    (∀ (s : CdpBridge) (n : Nat), s.isConnected = true → s.ws = true →
      (s.sendMany n).2 = (List.range' s.requestId n).map .allocated ∧
      List.Chain' (· < ·) (List.range' s.requestId n)) ∧
    (∀ (s : CdpBridge) (f : Frame) (i : Nat), f.id = some i → i ≠ 0 →
      i ∈ s.pendingRequests →
      (s.handleMessage f).2 = (match f.error with
        | some e => [.rejected i e]
        | none => [.resolved i f.result]) ∧
      (s.handleMessage f).1.pendingRequests = s.pendingRequests.erase i ∧
      (∀ j : Nat, j ≠ i →
        (j ∈ (s.handleMessage f).1.pendingRequests ↔ j ∈ s.pendingRequests)) ∧
      (s.pendingRequests.Nodup →
        i ∉ (s.handleMessage f).1.pendingRequests ∧
        (((s.handleMessage f).1).handleMessage f).2 = [])) := by
  refine ⟨fun s h1 h2 => send_eq_of_connected s h1 h2, ?_, ?_, ?_⟩
  · intro s h
    unfold CdpBridge.send
    rcases h with h | h <;> simp [h]
  · intro s n h1 h2
    exact ⟨sendMany_ids s n h1 h2, chain_lt_range' _ n⟩
  · intro s f i hid hnz hmem
    rw [handleMessage_matched s f i hid hnz hmem]
    refine ⟨rfl, rfl, ?_, ?_⟩
    · intro j hj
      exact List.mem_erase_of_ne hj
    · intro hnd
      have hni : i ∉ s.pendingRequests.erase i := hnd.not_mem_erase
      refine ⟨hni, ?_⟩
      rw [handleMessage_unmatched _ f (fun j hj => by
        rw [hid] at hj
        cases hj
        exact Or.inr hni)]

/-- Witness state for C1: connected, ids 1 and 2 pending. -/
def c1state : CdpBridge :=
  { ws := true, contexts := [], isConnected := true, reconnectTimer := false,
    requestId := 3, pendingRequests := [1, 2] }

/-- Witness frame for C1: an error response to request 2. -/
def c1frame : Frame :=
  { id := some 2, error := some "boom", result := none, method := none,
    ctx := none, ctxId := none }

/-- C1 instantiated: the error frame for id 2 rejects exactly entry 2,
removes it, and leaves entry 1 pending. -/
theorem C1_witness :
    (c1state.handleMessage c1frame).2 = [.rejected 2 "boom"] ∧
    (c1state.handleMessage c1frame).1.pendingRequests = [1] ∧
    (1 ∈ (c1state.handleMessage c1frame).1.pendingRequests ↔
      1 ∈ c1state.pendingRequests) ∧
    (c1state.sendMany 2).2 = [.allocated 3, .allocated 4] := by
  have h := C1_request_response_correlation
  refine ⟨?_, ?_, ?_, ?_⟩
  · exact (h.2.2.2 c1state c1frame 2 rfl (by decide) (by decide)).1
  · have := (h.2.2.2 c1state c1frame 2 rfl (by decide) (by decide)).2.1
    rw [this]; decide
  · exact (h.2.2.2 c1state c1frame 2 rfl (by decide) (by decide)).2.2.1 1 (by decide)
  · rw [(h.2.2.1 c1state 2 rfl rfl).1]; decide

/-! ## C2 — close/error cleanup and single reconnect -/

/-- **C2.** The `close` path (`cleanup()` then `scheduleReconnect()`)
marks the bridge disconnected, empties the context registry, clears the
pending map, and emits one `Connection closed` rejection per pending
entry in order — exactly one per id when the map is duplicate-free.
`scheduleReconnect` is the identity when a reconnect timer is already
pending (no second timer is ever created) and arms the single timer
otherwise, so after the close path a timer is pending either way. -/
theorem C2_cleanup_single_reconnect :
    (∀ s : CdpBridge,
      (s.onClose).1.isConnected = false ∧
      (s.onClose).1.contexts = [] ∧
      (s.onClose).1.pendingRequests = [] ∧
      (s.onClose).2 =
        s.pendingRequests.map (fun i => .rejected i "Connection closed") ∧
      (s.onClose).1.reconnectTimer = true) ∧
    (∀ s : CdpBridge, s.pendingRequests.Nodup → ∀ i ∈ s.pendingRequests,
      (s.onClose).2.count (Outcome.rejected i "Connection closed") = 1) ∧
    (∀ s : CdpBridge, s.reconnectTimer = true → s.scheduleReconnect = s) ∧
    (∀ s : CdpBridge, s.reconnectTimer = false →
      s.scheduleReconnect = { s with reconnectTimer := true }) := by
  refine ⟨?_, ?_, ?_, ?_⟩
  · intro s
    unfold CdpBridge.onClose CdpBridge.cleanup CdpBridge.scheduleReconnect
    by_cases h : s.reconnectTimer = true <;> simp [h]
  · intro s hnd i hmem
    unfold CdpBridge.onClose CdpBridge.cleanup
    simp only
    have hinj : Function.Injective
        (fun i : Nat => Outcome.rejected i "Connection closed") := by
      intro a b hab
      simpa using hab
    rw [List.count_map_of_injective _ _ hinj]
    exact List.count_eq_one_of_mem hnd hmem
  · intro s h
    unfold CdpBridge.scheduleReconnect
    simp [h]
  · intro s h
    unfold CdpBridge.scheduleReconnect
    simp [h]

/-- Witness state for C2: connected with two pending requests, context
registered, no pending reconnect timer. -/
def c2state : CdpBridge :=
  { ws := true, contexts := [(7, ⟨7, "main"⟩)], isConnected := true,
    reconnectTimer := false, requestId := 9, pendingRequests := [4, 6] }

/-- C2 instantiated: closing `c2state` rejects ids 4 and 6 once each
with `Connection closed`, clears everything and arms one timer; a second
`scheduleReconnect` on the result changes nothing. -/
theorem C2_witness :
    (c2state.onClose).2.count (Outcome.rejected 4 "Connection closed") = 1 ∧
    (c2state.onClose).2.count (Outcome.rejected 6 "Connection closed") = 1 ∧
    (c2state.onClose).1.contexts = [] ∧
    (c2state.onClose).1.isConnected = false ∧
    (c2state.onClose).1.scheduleReconnect = (c2state.onClose).1 := by
  have h := C2_cleanup_single_reconnect
  refine ⟨h.2.1 c2state (by decide) 4 (by decide),
          h.2.1 c2state (by decide) 6 (by decide),
          (h.1 c2state).2.1, (h.1 c2state).1, ?_⟩
  exact h.2.2.1 (c2state.onClose).1 (h.1 c2state).2.2.2.2

/-! ## C3 — busy propagation in the multi-context executor -/

/-- A context whose action expression gets evaluated during a sweep:
its probe neither threw nor returned false. -/
def actionEvaluated (e : CtxEval) : Bool :=
  match e.probe with
  | .val true => true
  | _ => false

/-- A context on which the sweep loop falls through to the next context:
probe threw or false, action threw or produced no value, or produced a
non-ok value whose reason is not `busy_cancel_visible`. -/
def continuesSweep : CtxEval → Bool
  | ⟨.threw, _⟩ => true
  | ⟨.val false, _⟩ => true
  | ⟨.val true, .threw⟩ => true
  | ⟨.val true, .noValue⟩ => true
  | ⟨.val true, .val v⟩ => !v.ok && !(decide (v.reason = some "busy_cancel_visible"))

/-- A sweep over fall-through contexts only ends in `not_found`, having
evaluated the action exactly in the probe-true contexts. -/
theorem trySweepGo_continue (l : List (Nat × CtxEval))
    (h : ∀ p ∈ l, continuesSweep p.2 = true) :
    trySweepGo l =
      (⟨false, none, some "not_found", none⟩,
       (l.filter (fun p => actionEvaluated p.2)).map (fun p => p.1)) := by
  induction l with
  | nil => rfl
  | cons p rest ih =>
    have hp := h p (by simp)
    have hrest := fun q hq => h q (List.mem_cons_of_mem p hq)
    obtain ⟨cid, ev⟩ := p
    obtain ⟨probe, action⟩ := ev
    cases probe with
    | threw => simpa [trySweepGo, actionEvaluated] using ih hrest
    | val b =>
      cases b with
      | false => simpa [trySweepGo, actionEvaluated] using ih hrest
      | true =>
        cases action with
        | threw => simp [trySweepGo, actionEvaluated, ih hrest]
        | noValue => simp [trySweepGo, actionEvaluated, ih hrest]
        | val v =>
          simp only [continuesSweep, Bool.and_eq_true, Bool.not_eq_true',
            decide_eq_false_iff_not] at hp
          simp [trySweepGo, actionEvaluated, hp.1, hp.2, ih hrest]

/-- A sweep that reaches a context whose action answers
`busy_cancel_visible` (all earlier contexts falling through) returns the
`busy` object at that context and never evaluates the action in any
later context: the evaluation log stops at `cid`. -/
theorem trySweepGo_busy (pre suf : List (Nat × CtxEval)) (cid : Nat)
    (v : JsObj) (hpre : ∀ p ∈ pre, continuesSweep p.2 = true)
    (hok : v.ok = false) (hr : v.reason = some "busy_cancel_visible") :
    trySweepGo (pre ++ (cid, ⟨.val true, .val v⟩) :: suf) =
      (⟨false, none, some "busy", none⟩,
       (pre.filter (fun p => actionEvaluated p.2)).map (fun p => p.1) ++ [cid]) := by
  induction pre with
  | nil => simp [trySweepGo, hok, hr]
  | cons p rest ih =>
    have hp := hpre p (by simp)
    have hrest := fun q hq => hpre q (List.mem_cons_of_mem p hq)
    obtain ⟨pid, ev⟩ := p
    obtain ⟨probe, action⟩ := ev
    cases probe with
    | threw => simpa [trySweepGo, actionEvaluated] using ih hrest
    | val b =>
      cases b with
      | false => simpa [trySweepGo, actionEvaluated] using ih hrest
      | true =>
        cases action with
        | threw => simp [trySweepGo, actionEvaluated, ih hrest]
        | noValue => simp [trySweepGo, actionEvaluated, ih hrest]
        | val w =>
          simp only [continuesSweep, Bool.and_eq_true, Bool.not_eq_true',
            decide_eq_false_iff_not] at hp
          simp [trySweepGo, actionEvaluated, hp.1, hp.2, ih hrest]

/-- **C3 (amended).** Within one sweep, a `busy_cancel_visible` action
answer makes `tryInjectAnyContext` return `{ok:false, error:'busy'}`
immediately, with no later context's action evaluated.  `injectMessage`
checks `result.error === 'busy'` at the top of every retry iteration,
so a Busy outcome arising in the *first* sweep of any of the 3
iterations (call indices 0, 2, 4) is propagated unchanged: the call
ends after `2*i+1` sweeps with only the `i` pauses already performed.
The *post-pause second* sweep of an iteration (call indices 1, 3, 5) is
the one unchecked place: a Busy outcome there is not returned — the
loop keeps sweeping (see the counterexample). -/
theorem C3_amended_busy_short_circuits :
    (∀ (ctxs pre suf : List (Nat × CtxEval)) (cid : Nat) (v : JsObj),
      ctxs.reverse = pre ++ (cid, ⟨.val true, .val v⟩) :: suf →
      (∀ p ∈ pre, continuesSweep p.2 = true) →
      v.ok = false → v.reason = some "busy_cancel_visible" →
      tryInjectAnyContext ctxs =
        (⟨false, none, some "busy", none⟩,
         (pre.filter (fun p => actionEvaluated p.2)).map (fun p => p.1) ++ [cid])) ∧
    (∀ ev : Nat → List (Nat × CtxEval),
      (tryInjectAnyContext (ev 0)).1.ok = false →
      (tryInjectAnyContext (ev 0)).1.error = some "busy" →
      injectMessage true ev =
        ⟨(tryInjectAnyContext (ev 0)).1, 1,
         (tryInjectAnyContext (ev 0)).2.map (fun i => (0, i)), []⟩) ∧
    (∀ (ev : Nat → List (Nat × CtxEval)) (i : Nat), i < 3 →
      (∀ j, j < i →
        (tryInjectAnyContext (ev (2 * j))).1.ok = false ∧
        (tryInjectAnyContext (ev (2 * j))).1.error ≠ some "busy" ∧
        (tryInjectAnyContext (ev (2 * j + 1))).1.ok = false) →
      (tryInjectAnyContext (ev (2 * i))).1.ok = false →
      (tryInjectAnyContext (ev (2 * i))).1.error = some "busy" →
      (injectMessage true ev).result = (tryInjectAnyContext (ev (2 * i))).1 ∧
      (injectMessage true ev).sweeps = 2 * i + 1 ∧
      (injectMessage true ev).waits = List.replicate i 1000) := by
  refine ⟨?_, ?_, ?_⟩
  · intro ctxs pre suf cid v hrev hpre hok hr
    have hne : ctxs.length ≠ 0 := by
      intro h0
      rw [List.length_eq_zero] at h0
      rw [h0] at hrev
      exact absurd hrev.symm (by simp)
    unfold tryInjectAnyContext
    rw [if_neg hne, hrev]
    exact trySweepGo_busy pre suf cid v hpre hok hr
  · intro ev hok hbusy
    unfold injectMessage injectGo
    simp [hok, hbusy]
  · intro ev i hi h hok hbusy
    interval_cases i
    · norm_num at hok hbusy
      unfold injectMessage
      simp [injectGo, List.replicate, hok, hbusy]
    · obtain ⟨h0a, h0b, h0c⟩ := h 0 (by norm_num)
      norm_num at h0a h0b h0c hok hbusy
      unfold injectMessage
      simp [injectGo, List.replicate, h0a, h0b, h0c, hok, hbusy]
    · obtain ⟨h0a, h0b, h0c⟩ := h 0 (by norm_num)
      obtain ⟨h1a, h1b, h1c⟩ := h 1 (by norm_num)
      norm_num at h0a h0b h0c h1a h1b h1c hok hbusy
      unfold injectMessage
      simp [injectGo, List.replicate, h0a, h0b, h0c, h1a, h1b, h1c, hok, hbusy]

/-- Executor behavior used to refute C3 as stated: the first sweep finds
only a non-busy failure, the second (post-pause) sweep of iteration 0
gets `busy_cancel_visible` in context 1, and every later sweep finds a
plain failing value in context 2. -/
def cex3ev : Nat → List (Nat × CtxEval) :=
  fun c =>
    if c = 0 then
      [(1, ⟨.val true, .val ⟨false, none, some "editor_not_found", none⟩⟩)]
    else if c = 1 then
      [(1, ⟨.val true, .val ⟨false, some "busy_cancel_visible", none, none⟩⟩)]
    else [(2, ⟨.val true, .val ⟨false, none, none, none⟩⟩)]

/-- **C3 is false as stated**: in this run the action in context 1
returns busy during the call (call index 1), yet the executor does not
return a Busy outcome — it keeps sweeping, evaluates the action in
context 2 at sweeps 2–5, performs 6 sweeps in total, and finally
returns `editor_not_found_in_any_context`, losing the Busy outcome. -/
theorem C3_counterexample :
    cex3ev 1 =
      [(1, ⟨.val true, .val ⟨false, some "busy_cancel_visible", none, none⟩⟩)] ∧
    (tryInjectAnyContext (cex3ev 1)).1 = ⟨false, none, some "busy", none⟩ ∧
    (1, 1) ∈ (injectMessage true cex3ev).actions ∧
    (2, 2) ∈ (injectMessage true cex3ev).actions ∧
    (injectMessage true cex3ev).sweeps = 6 ∧
    (injectMessage true cex3ev).result ≠ ⟨false, none, some "busy", none⟩ ∧
    (injectMessage true cex3ev).result.error =
      some "editor_not_found_in_any_context" := by decide

/-- Witness registry for C3: context 9 (probed first) fails non-busy,
then context 5 answers busy. -/
def c3wev : Nat → List (Nat × CtxEval) :=
  fun _ =>
    [(5, ⟨.val true, .val ⟨false, some "busy_cancel_visible", none, none⟩⟩),
     (9, ⟨.val true, .val ⟨false, none, some "x", none⟩⟩)]

/-- Second witness registry for C3: sweep 0 finds a non-busy failure,
sweep 1 finds no usable context, and sweep 2 — the first sweep of retry
iteration 1 — gets busy in context 3. -/
def c3wev2 : Nat → List (Nat × CtxEval) :=
  fun c =>
    if c = 0 then
      [(1, ⟨.val true, .val ⟨false, none, some "editor_not_found", none⟩⟩)]
    else if c = 1 then [(1, ⟨.val false, .noValue⟩)]
    else [(3, ⟨.val true, .val ⟨false, some "busy_cancel_visible", none, none⟩⟩)]

/-- C3 (amended) instantiated: the first-sweep busy in context 5 stops
the sweep after contexts 9 and 5 and propagates through `injectMessage`
as a single-sweep busy result; and a busy outcome at the first sweep of
iteration 1 (call index 2) is likewise propagated unchanged, after 3
sweeps and the single pause already performed. -/
theorem C3_witness :
    tryInjectAnyContext (c3wev 0) =
      (⟨false, none, some "busy", none⟩, [9, 5]) ∧
    injectMessage true c3wev =
      ⟨⟨false, none, some "busy", none⟩, 1, [(0, 9), (0, 5)], []⟩ ∧
    (injectMessage true c3wev2).result = ⟨false, none, some "busy", none⟩ ∧
    (injectMessage true c3wev2).sweeps = 3 ∧
    (injectMessage true c3wev2).waits = [1000] := by
  have ha := C3_amended_busy_short_circuits.1 (c3wev 0)
    [(9, ⟨.val true, .val ⟨false, none, some "x", none⟩⟩)] [] 5
    ⟨false, some "busy_cancel_visible", none, none⟩
    (by decide) (by decide) rfl rfl
  have hb := C3_amended_busy_short_circuits.2.1 c3wev (by decide) (by decide)
  have hc := C3_amended_busy_short_circuits.2.2 c3wev2 1 (by norm_num)
    (by
      intro j hj
      have hj0 : j = 0 := by omega
      subst hj0
      exact ⟨by decide, by decide, by decide⟩)
    (by decide) (by decide)
  refine ⟨by simpa using ha, by rw [hb]; decide, ?_, ?_, ?_⟩
  · rw [hc.1]
    decide
  · rw [hc.2.1]
  · rw [hc.2.2]
    rfl

/-! ## C4 — retry budget and structured CapabilityNotFound -/

/-- Executor behavior used to refute C4 as stated: a single context
whose probe always answers false, so every sweep fails. -/
def cex4ev : Nat → List (Nat × CtxEval) := fun _ => [(1, ⟨.val false, .noValue⟩)]

/-- **C4 is false as stated**: with no context ever succeeding or busy,
the executor performs 6 sweeps over the context list (two per retry
iteration), not at most 3.  The pause and structured-return parts hold:
three 1000 ms pauses (one inside each iteration) and a returned — not
thrown — `{ok:false, error:'editor_not_found_in_any_context'}` value. -/
theorem C4_counterexample :
    (injectMessage true cex4ev).sweeps = 6 ∧
    ¬ (injectMessage true cex4ev).sweeps ≤ 3 ∧
    (injectMessage true cex4ev).waits = [1000, 1000, 1000] ∧
    (injectMessage true cex4ev).result =
      ⟨false, none, some "editor_not_found_in_any_context", none⟩ := by decide

/-- **C4 (amended).** If all six sweeps (two per iteration, three
iterations) return neither success nor a first-sweep busy, the executor
performs exactly 6 sweeps with a 1000 ms pause inside each iteration and
returns the structured value
`{ok:false, error:'editor_not_found_in_any_context'}` — never throwing. -/
theorem C4_amended_retry_budget (ev : Nat → List (Nat × CtxEval))
    (h : ∀ c < 6, (tryInjectAnyContext (ev c)).1.ok = false ∧
      (tryInjectAnyContext (ev c)).1.error ≠ some "busy") :
    (injectMessage true ev).result =
      ⟨false, none, some "editor_not_found_in_any_context", none⟩ ∧
    (injectMessage true ev).sweeps = 6 ∧
    (injectMessage true ev).waits = [1000, 1000, 1000] := by
  have h0 := h 0 (by norm_num)
  have h1 := h 1 (by norm_num)
  have h2 := h 2 (by norm_num)
  have h3 := h 3 (by norm_num)
  have h4 := h 4 (by norm_num)
  have h5 := h 5 (by norm_num)
  unfold injectMessage
  simp [injectGo, h0.1, h0.2, h1.1, h2.1, h2.2, h3.1, h4.1, h4.2, h5.1]

/-- C4 (amended) instantiated on the all-failing registry. -/
theorem C4_witness :
    (injectMessage true cex4ev).result =
      ⟨false, none, some "editor_not_found_in_any_context", none⟩ ∧
    (injectMessage true cex4ev).sweeps = 6 ∧
    (injectMessage true cex4ev).waits = [1000, 1000, 1000] :=
  C4_amended_retry_budget cex4ev (by decide)

/-! ## C5 — FIFO enqueue and drain on successful deliveries -/

/-- A tick on a busy agent does nothing: no dequeue, no event. -/
theorem tick_of_busy (s : ServerState) (inj : JsObj)
    (h : s.agent.busy = true) : tick s inj = (s, []) := by
  unfold tick
  rw [if_neg]
  rintro ⟨-, hb⟩
  rw [h] at hb
  cases hb

/-- While the agent stays busy, any run of ticks is a no-op. -/
theorem runTicks_of_busy (s : ServerState) (injs : List JsObj)
    (h : s.agent.busy = true) : runTicks s injs = (s, []) := by
  induction injs with
  | nil => rfl
  | cons inj rest ih =>
    unfold runTicks
    rw [tick_of_busy s inj h]
    simp only
    rw [ih]
    rfl

/-- An idle agent with `n` queued items drains to the empty queue on `n`
successful ticks, publishing `queue_update` events with the strictly
decreasing counts `n-1, …, 0`. -/
theorem runTicks_drain (inj : JsObj) (hok : inj.ok = true) :
    ∀ (n : Nat) (s : ServerState), s.agent.busy = false →
    s.actionQueue.length = n →
    (runTicks s (List.replicate n inj)).1.actionQueue = [] ∧
    (runTicks s (List.replicate n inj)).2 =
      (List.range n).reverse.map (fun k => Event.queue_update k (some "success")) := by
  intro n
  induction n with
  | zero =>
    intro s hb hl
    rw [List.length_eq_zero] at hl
    simp [runTicks, hl]
  | succ n ih =>
    intro s hb hl
    have hpos : 0 < s.actionQueue.length := by omega
    have htick : tick s inj =
        ({ s with actionQueue := s.actionQueue.tail },
         [Event.queue_update s.actionQueue.tail.length (some "success")]) := by
      unfold tick
      rw [if_pos ⟨hpos, hb⟩, if_pos hok]
    have htl : s.actionQueue.tail.length = n := by
      rw [List.length_tail, hl]
      omega
    obtain ⟨ih1, ih2⟩ := ih { s with actionQueue := s.actionQueue.tail } hb htl
    rw [List.replicate_succ]
    unfold runTicks
    rw [htick]
    simp only
    refine ⟨ih1, ?_⟩
    rw [ih2, htl, List.range_succ]
    simp

/-- **C5.** `POST /api/queue` with a non-empty text appends
`{id, text, from, addedAt}` to the queue tail, broadcasts the new count
and returns the new length as the position; and from an idle agent with
`n` queued items, `n` consecutive successful deliveries (one per tick)
drain the queue to length 0 and publish exactly `n` `queue_update`
events whose counts `n-1, …, 0` strictly decrease. -/
theorem C5_enqueue_and_drain :
    (∀ (s : ServerState) (text : String) (fr : Option String)
       (nid : String) (now : Nat), text ≠ "" →
      enqueue s text fr nid now =
        ({ s with actionQueue := s.actionQueue ++
            [⟨nid, text,
              (match fr with
               | some f => if f = "" then "api" else f
               | none => "api"), none, now⟩] },
         .ok (s.actionQueue.length + 1),
         [.queue_update (s.actionQueue.length + 1) none])) ∧
    (∀ (inj : JsObj) (n : Nat) (s : ServerState), inj.ok = true →
      s.agent.busy = false → s.actionQueue.length = n →
      (runTicks s (List.replicate n inj)).1.actionQueue = [] ∧
      (runTicks s (List.replicate n inj)).2 =
        (List.range n).reverse.map (fun k => Event.queue_update k (some "success")) ∧
      List.Chain' (fun a b => b < a) (List.range n).reverse) := by
  constructor
  · intro s text fr nid now ht
    unfold enqueue
    rw [if_neg ht]
    simp
  · intro inj n s hok hb hl
    obtain ⟨h1, h2⟩ := runTicks_drain inj hok n s hb hl
    refine ⟨h1, h2, ?_⟩
    rw [List.chain'_reverse]
    have hch := chain_lt_range' 0 n
    rw [← List.range_eq_range'] at hch
    exact hch.imp (fun _ _ hab => hab)

/-- Witness agent/state: idle, empty queue. -/
def c5agent : AgentState := { state := "idle", lastSeen := none, task := "", busy := false }

/-- Witness state for C5 after two enqueues. -/
def c5full : ServerState :=
  { actionQueue := [⟨"a", "check inbox", "api", none, 10⟩,
                    ⟨"b", "second", "api", none, 11⟩],
    agent := c5agent, delegations := [] }

/-- A successful injection outcome. -/
def okInj : JsObj := { ok := true, reason := none, error := none, method := some "click_submit" }

/-- C5 instantiated: enqueueing onto the empty queue returns position 1,
and two successful ticks drain the two-item queue publishing counts 1
then 0. -/
theorem C5_witness :
    (enqueue { actionQueue := [], agent := c5agent, delegations := [] }
       "check inbox" none "a" 10).2.1 = .ok 1 ∧
    (runTicks c5full (List.replicate 2 okInj)).1.actionQueue = [] ∧
    (runTicks c5full (List.replicate 2 okInj)).2 =
      [Event.queue_update 1 (some "success"), Event.queue_update 0 (some "success")] := by
  have h1 := C5_enqueue_and_drain.1
    { actionQueue := [], agent := c5agent, delegations := [] }
    "check inbox" none "a" 10 (by decide)
  have h2 := C5_enqueue_and_drain.2 okInj 2 c5full rfl rfl rfl
  refine ⟨by rw [h1]; rfl, h2.1, by rw [h2.2.1]; decide⟩

/-! ## C6 — busy outcome blocks dequeue -/

/-- **C6.** A tick whose delivery reports `busy` (an idle agent, items
queued) sets `agent.busy := true`, publishes `agent_state{busy:true}`
and leaves the queue — in particular its head — untouched; and while
`agent.busy` stays true every tick is a no-op: no run of ticks (in
particular 3 consecutive ones) removes any item from the queue. -/
theorem C6_busy_tick_keeps_item :
    (∀ (s : ServerState) (inj : JsObj), 0 < s.actionQueue.length →
      s.agent.busy = false → inj.ok = false → inj.error = some "busy" →
      tick s inj = ({ s with agent := { s.agent with busy := true } },
                    [.agent_state true])) ∧
    (∀ (s : ServerState) (inj : JsObj), s.agent.busy = true →
      tick s inj = (s, [])) ∧
    (∀ (s : ServerState) (injs : List JsObj), s.agent.busy = true →
      runTicks s injs = (s, [])) ∧
    (∀ (s : ServerState) (i1 i2 i3 : JsObj), s.agent.busy = true →
      (runTicks s [i1, i2, i3]).1.actionQueue = s.actionQueue) := by
  refine ⟨?_, tick_of_busy, runTicks_of_busy, ?_⟩
  · intro s inj hpos hb hok herr
    unfold tick
    rw [if_pos ⟨hpos, hb⟩]
    simp [hok, herr]
  · intro s i1 i2 i3 h
    rw [runTicks_of_busy s [i1, i2, i3] h]

/-- The busy injection outcome as produced by the executor. -/
def busyInj : JsObj := { ok := false, reason := none, error := some "busy", method := none }

/-- Witness state for C6: one queued item, agent already busy. -/
def c6busy : ServerState :=
  { actionQueue := [⟨"c", "later", "api", none, 12⟩],
    agent := { state := "working", lastSeen := some 99, task := "t", busy := true },
    delegations := [] }

/-- C6 instantiated: a busy delivery on an idle one-item queue flips the
agent to busy without dequeuing, and a busy agent keeps its item across
3 consecutive ticks. -/
theorem C6_witness :
    tick { actionQueue := [⟨"c", "later", "api", none, 12⟩], agent := c5agent,
           delegations := [] } busyInj =
      ({ actionQueue := [⟨"c", "later", "api", none, 12⟩],
         agent := { state := "idle", lastSeen := none, task := "", busy := true },
         delegations := [] }, [.agent_state true]) ∧
    (runTicks c6busy [busyInj, okInj, okInj]).1.actionQueue = c6busy.actionQueue := by
  have h1 := C6_busy_tick_keeps_item.1
    { actionQueue := [⟨"c", "later", "api", none, 12⟩], agent := c5agent,
      delegations := [] } busyInj (by decide) rfl rfl rfl
  have h2 := C6_busy_tick_keeps_item.2.2.2 c6busy busyInj okInj okInj rfl
  exact ⟨h1, h2⟩

/-! ## C7 — lazy timeout evaluation on list -/

/-- An expired `in_progress` delegation: the lazy sweep should flip it. -/
def c7rec : Delegation :=
  { id := "del_x", target_tab := "tab", task := "t", model := none,
    modelIndex := none, priority := "normal", timeout_ms := 100,
    status := "in_progress", createdAt := 0, startedAt := some 0,
    completedAt := none, acceptedAt := none, result := none, error := none }

/-- State holding only the expired record. -/
def c7state : ServerState :=
  { actionQueue := [], agent := c5agent, delegations := [c7rec] }

/-- **C7 is false as stated**: `list(filter)` only sweeps the records
that pass the filter.  At time 150 the single record is `in_progress`
with `startedAt = 0` and `timeoutMs = 100` — elapsed 150 exceeds the
timeout — yet a `list` call filtered on `status=pending` leaves it
`in_progress` with no error, unflipped in the persisted store. -/
theorem C7_counterexample :
    (100 : Int) < (150 : Int) - (0 : Int) ∧
    c7rec.status = "in_progress" ∧
    (listDelegations c7state none (some "pending") 150).1.delegations.map
      (fun d => d.status) = ["in_progress"] ∧
    (listDelegations c7state none (some "pending") 150).1.delegations.map
      (fun d => d.error) = [none] := by decide

/-- **C7 (amended).**  `list`, before returning, flips every record that
*passes its filters* and is `in_progress` with `now − startedAt >
timeoutMs` to `timeout` with a populated elapsed-time error, persisting
the change as a side effect of the read (no background timer exists in
the model); an unfiltered `list` therefore sweeps every record.
Records the filter excludes are not swept (see the counterexample). -/
theorem C7_amended_lazy_timeout :
    (∀ (s : ServerState) (now : Nat),
      (listDelegations s none none now).1.delegations =
        s.delegations.map (sweepOne now) ∧
      (listDelegations s none none now).2.delegations =
        s.delegations.map (sweepOne now)) ∧
    (∀ (now : Nat) (d : Delegation) (t : Nat),
      d.status = "in_progress" → d.startedAt = some t →
      (d.timeout_ms : Int) < (now : Int) - (t : Int) →
      sweepOne now d =
        { d with status := "timeout",
                 error := some ("Timeout after " ++
                   toString (jsRoundDiv1000 (now - t)) ++ "s") }) ∧
    (∀ (now : Nat) (d : Delegation),
      d.status ≠ "in_progress" → sweepOne now d = d) ∧
    (∀ (now : Nat) (d : Delegation) (t : Nat), d.startedAt = some t →
      ¬ ((d.timeout_ms : Int) < (now : Int) - (t : Int)) →
      sweepOne now d = d) := by
  refine ⟨?_, ?_, ?_, ?_⟩
  · intro s now
    unfold listDelegations
    simp [idMatches, statusMatches]
  · intro now d t hst hsa hel
    unfold sweepOne
    rw [if_pos hst, hsa]
    simp only [hel, if_pos]
  · intro now d hst
    unfold sweepOne
    rw [if_neg hst]
  · intro now d t hsa hel
    unfold sweepOne
    split
    · rw [hsa]
      simp only
      rw [if_neg hel]
    · rfl

/-- The store produced by creating a delegation with `timeoutMs = 100`
at time 1000 against a focusable tab. -/
def c7created : ServerState :=
  (createDelegation { actionQueue := [], agent := c5agent, delegations := [] }
    "tab" "do it" none (some 100) none "del_1" 1000 true "").1

/-- C7 (amended) instantiated: 150 ms after creation, an *unfiltered*
`list` reads the record as `timeout` with the populated message
`Timeout after 0s`, and the flip is persisted — with no timer involved. -/
theorem C7_witness :
    (listDelegations c7created none none 1150).1.delegations.map
      (fun d => d.status) = ["timeout"] ∧
    (listDelegations c7created none none 1150).1.delegations.map
      (fun d => d.error) = [some "Timeout after 0s"] ∧
    sweepOne 1150 c7rec =
      { c7rec with status := "timeout", error := some "Timeout after 1s" } := by
  have h1 := (C7_amended_lazy_timeout.1 c7created 1150).1
  have h2 := C7_amended_lazy_timeout.2.1 1150 c7rec 0 rfl rfl (by decide)
  refine ⟨by rw [h1]; decide, by rw [h1]; decide, by rw [h2]; decide⟩

/-! ## C8 — accept: completed guard and deadline reset -/

/-- **C8.** `accept(id)` on a delegation whose (first-matching) record is
`completed` answers `{ok:false, error:'already_completed'}` and returns
the state untouched — every field of every record unchanged (the
response key carrying `already_completed` is named `error` in the
source).  On a record in any other status it answers ok with the record
forced to `in_progress`, `acceptedAt` stamped and `startedAt` reset to
the current time (all other fields unchanged), replacing exactly the
first record with that id in the store. -/
theorem C8_accept_completed_guard :
    (∀ (s : ServerState) (id : String) (now : Nat) (d : Delegation),
      s.delegations.find? (fun x => x.id = id) = some d →
      d.status = "completed" →
      acceptDelegation s id now = (s, ⟨false, some "already_completed", none⟩, [])) ∧
    (∀ (s : ServerState) (id : String) (now : Nat) (d : Delegation),
      s.delegations.find? (fun x => x.id = id) = some d →
      d.status ≠ "completed" →
      acceptDelegation s id now =
        ({ s with
            delegations := updateFirst (fun x => x.id = id)
              (fun _ => { d with status := "in_progress",
                                 acceptedAt := some now,
                                 startedAt := some now }) s.delegations },
         ⟨true, none, some { d with status := "in_progress",
                                    acceptedAt := some now,
                                    startedAt := some now }⟩,
         [.delegation_update { d with status := "in_progress",
                                      acceptedAt := some now,
                                      startedAt := some now }])) := by
  constructor
  · intro s id now d hfind hst
    unfold acceptDelegation
    rw [hfind]
    simp only [hst, if_pos]
  · intro s id now d hfind hst
    unfold acceptDelegation
    rw [hfind]
    simp only [hst, if_neg, ite_false]

/-- A completed delegation record. -/
def c8done : Delegation :=
  { c7rec with id := "del_done", status := "completed", completedAt := some 80,
               result := some "done" }

/-- Witness store for C8: one completed and one pending record. -/
def c8state : ServerState :=
  { actionQueue := [], agent := c5agent,
    delegations := [c8done, { c7rec with id := "del_p", status := "pending" }] }

/-- C8 instantiated: accepting the completed record is refused with
`already_completed` and changes nothing; accepting the pending record
forces it `in_progress` with both timestamps set to now. -/
theorem C8_witness :
    acceptDelegation c8state "del_done" 900 =
      (c8state, ⟨false, some "already_completed", none⟩, []) ∧
    ((acceptDelegation c8state "del_p" 900).1.delegations.map
      (fun d => (d.id, d.status, d.acceptedAt, d.startedAt))) =
      [("del_done", "completed", none, some 0),
       ("del_p", "in_progress", some 900, some 900)] := by
  have h1 := C8_accept_completed_guard.1 c8state "del_done" 900 c8done rfl rfl
  have h2 := C8_accept_completed_guard.2 c8state "del_p" 900
    { c7rec with id := "del_p", status := "pending" } (by decide) (by decide)
  exact ⟨h1, by rw [h2]; decide⟩

/-! ## C9 — model resolution on delegation create -/

/-- Computation lemma: a create against a focusable tab stores and
returns the `in_progress` record and queues the task. -/
theorem createDelegation_focus_ok (s : ServerState) (tt tk : String)
    (pr : Option String) (tm : Option Nat) (sel : Option ModelSelector)
    (nid : String) (now : Nat) (ferr : String) (h : ¬ (tt = "" ∨ tk = "")) :
    createDelegation s tt tk pr tm sel nid now true ferr =
      ({ s with
          delegations := capDelegations (s.delegations ++
            [{ pendingRecord tt tk pr tm (resolveModel sel) nid now with
                status := "in_progress", startedAt := some now }]),
          actionQueue := s.actionQueue ++
            [⟨nid, tk, "delegation", (resolveModel sel).map (fun m => m.name), now⟩] },
       .ok { pendingRecord tt tk pr tm (resolveModel sel) nid now with
              status := "in_progress", startedAt := some now },
       [.delegation_update { pendingRecord tt tk pr tm (resolveModel sel) nid now with
              status := "in_progress", startedAt := some now }]) := by
  unfold createDelegation
  rw [if_neg h]
  rfl

/-- Computation lemma: a create whose tab focus fails stores and returns
the `failed` record and queues nothing. -/
theorem createDelegation_focus_fail (s : ServerState) (tt tk : String)
    (pr : Option String) (tm : Option Nat) (sel : Option ModelSelector)
    (nid : String) (now : Nat) (ferr : String) (h : ¬ (tt = "" ∨ tk = "")) :
    createDelegation s tt tk pr tm sel nid now false ferr =
      ({ s with
          delegations := capDelegations (s.delegations ++
            [{ pendingRecord tt tk pr tm (resolveModel sel) nid now with
                status := "failed",
                error := some ("Tab focus failed: " ++ ferr) }]) },
       .ok { pendingRecord tt tk pr tm (resolveModel sel) nid now with
              status := "failed",
              error := some ("Tab focus failed: " ++ ferr) },
       [.delegation_update
         { pendingRecord tt tk pr tm (resolveModel sel) nid now with
            status := "failed",
            error := some ("Tab focus failed: " ++ ferr) }]) := by
  unfold createDelegation
  rw [if_neg h]
  rfl

/-- **C9.** A numeric `modelSelector` resolves only by exact index match
against the static catalog — `2` yields the 3rd entry, `Gemini 3 Flash`;
a string selector resolves by case-insensitive substring match on the
name or exact case-insensitive match on the key — `"claude-sonnet"`
resolves to the `claude-sonnet` entry by key (its name does not contain
the selector); an unresolved selector leaves `model`/`modelIndex` null
and the delegation still proceeds to `in_progress` (focus succeeding)
instead of failing. -/
theorem C9_model_resolution :
    resolveModel (some (.num 2)) = AVAILABLE_MODELS.get? 2 ∧
    AVAILABLE_MODELS.get? 2 = some ⟨2, "Gemini 3 Flash", "gemini-flash"⟩ ∧
    (∀ (n : Nat) (m : ModelInfo), resolveModel (some (.num n)) = some m →
      m.index = n ∧ m ∈ AVAILABLE_MODELS) ∧
    resolveModel (some (.str "claude-sonnet")) =
      some ⟨3, "Claude Sonnet 4.5", "claude-sonnet"⟩ ∧
    jsIncludes (jsToLower "Claude Sonnet 4.5") (jsToLower "claude-sonnet") = false ∧
    (∀ (q : String) (m : ModelInfo), resolveModel (some (.str q)) = some m →
      m ∈ AVAILABLE_MODELS ∧
      (jsIncludes (jsToLower m.name) (jsToLower q) = true ∨ jsToLower m.key = jsToLower q)) ∧
    (∀ (s : ServerState) (tt tk : String) (pr : Option String)
       (tm : Option Nat) (sel : Option ModelSelector) (nid : String)
       (now : Nat) (ferr : String), tt ≠ "" → tk ≠ "" →
      resolveModel sel = none →
      (createDelegation s tt tk pr tm sel nid now true ferr).2.1 =
        .ok { pendingRecord tt tk pr tm none nid now with
               status := "in_progress", startedAt := some now } ∧
      ({ pendingRecord tt tk pr tm none nid now with
          status := "in_progress", startedAt := some now } : Delegation).model = none ∧
      ({ pendingRecord tt tk pr tm none nid now with
          status := "in_progress", startedAt := some now } : Delegation).status =
        "in_progress") := by
  refine ⟨by decide, by decide, ?_, by decide, by decide, ?_, ?_⟩
  · intro n m hm
    have hp := List.find?_some hm
    have hmem := List.mem_of_find?_eq_some hm
    exact ⟨of_decide_eq_true hp, hmem⟩
  · intro q m hm
    have hp := List.find?_some hm
    have hmem := List.mem_of_find?_eq_some hm
    rcases Bool.or_eq_true_iff.mp hp with h | h
    · exact ⟨hmem, Or.inl h⟩
    · exact ⟨hmem, Or.inr (of_decide_eq_true h)⟩
  · intro s tt tk pr tm sel nid now ferr htt htk hsel
    have hg : ¬ (tt = "" ∨ tk = "") := by
      rintro (h | h)
      · exact htt h
      · exact htk h
    rw [createDelegation_focus_ok s tt tk pr tm sel nid now ferr hg, hsel]
    exact ⟨rfl, rfl, rfl⟩

/-- Witness base store for C9/C10. -/
def c9base : ServerState :=
  { actionQueue := [], agent := c5agent, delegations := [] }

/-- C9 instantiated: the unmatched string selector `"zzz"` resolves to
nothing, and the created delegation still reaches `in_progress` with a
null model. -/
theorem C9_witness :
    resolveModel (some (.str "zzz")) = none ∧
    (createDelegation c9base "tab" "t" none none (some (.str "zzz"))
        "id1" 5 true "").2.1 =
      .ok { pendingRecord "tab" "t" none none none "id1" 5 with
             status := "in_progress", startedAt := some 5 } ∧
    ({ pendingRecord "tab" "t" none none none "id1" 5 with
        status := "in_progress", startedAt := some 5 } : Delegation).model = none := by
  have h := C9_model_resolution.2.2.2.2.2.2 c9base "tab" "t" none none
    (some (.str "zzz")) "id1" 5 "" (by decide) (by decide) (by decide)
  exact ⟨by decide, h.1, h.2.1⟩

/-! ## C10 — delegation collection bounded at 50 -/

/-- Appending to a non-empty list commutes with `tail`. -/
theorem tail_append_singleton {α : Type} (l : List α) (x : α) (h : l ≠ []) :
    (l ++ [x]).tail = l.tail ++ [x] := by
  cases l with
  | nil => exact absurd rfl h
  | cons a as => rfl

/-- **C10.** Every create appends its record to the delegation
collection and then, if the collection exceeds 50, evicts the oldest
(head) record: the new collection is `capDelegations (old ++ [rec])`.
Hence a collection of at most 50 records stays at most 50 after any
create, and a full collection of exactly 50 loses its oldest record —
whatever its status — while the new record survives at the tail. -/
theorem C10_delegations_capped :
    ∀ (s : ServerState) (tt tk : String) (pr : Option String)
      (tm : Option Nat) (sel : Option ModelSelector) (nid : String)
      (now : Nat) (fok : Bool) (ferr : String), tt ≠ "" → tk ≠ "" →
    ∃ rec : Delegation,
      rec.id = nid ∧
      (createDelegation s tt tk pr tm sel nid now fok ferr).1.delegations =
        capDelegations (s.delegations ++ [rec]) ∧
      (createDelegation s tt tk pr tm sel nid now fok ferr).1.delegations =
        (if 50 < s.delegations.length + 1 then (s.delegations ++ [rec]).tail
         else s.delegations ++ [rec]) ∧
      (s.delegations.length ≤ 50 →
        (createDelegation s tt tk pr tm sel nid now fok ferr).1.delegations.length ≤ 50) ∧
      (s.delegations.length = 50 →
        (createDelegation s tt tk pr tm sel nid now fok ferr).1.delegations =
          s.delegations.tail ++ [rec]) := by
  intro s tt tk pr tm sel nid now fok ferr htt htk
  have hg : ¬ (tt = "" ∨ tk = "") := by
    rintro (h | h)
    · exact htt h
    · exact htk h
  have key : ∀ rec : Delegation,
      capDelegations (s.delegations ++ [rec]) =
        (if 50 < s.delegations.length + 1 then (s.delegations ++ [rec]).tail
         else s.delegations ++ [rec]) ∧
      (s.delegations.length ≤ 50 →
        (capDelegations (s.delegations ++ [rec])).length ≤ 50) ∧
      (s.delegations.length = 50 →
        capDelegations (s.delegations ++ [rec]) = s.delegations.tail ++ [rec]) := by
    intro rec
    refine ⟨?_, ?_, ?_⟩
    · unfold capDelegations
      rw [List.length_append]
      rfl
    · intro hle
      unfold capDelegations
      rw [List.length_append]
      by_cases hc : 50 < s.delegations.length + 1
      · rw [if_pos (by simpa using hc), List.length_tail, List.length_append]
        simp
        omega
      · rw [if_neg (by simpa using hc), List.length_append]
        simp
        omega
    · intro h50
      unfold capDelegations
      rw [List.length_append]
      rw [if_pos (by simp; omega)]
      refine tail_append_singleton _ _ ?_
      intro hnil
      rw [hnil] at h50
      simp at h50
  cases fok with
  | true =>
    refine ⟨{ pendingRecord tt tk pr tm (resolveModel sel) nid now with
               status := "in_progress", startedAt := some now }, rfl, ?_⟩
    rw [createDelegation_focus_ok s tt tk pr tm sel nid now ferr hg]
    exact ⟨rfl, (key _).1, fun h => (key _).2.1 h, fun h => (key _).2.2 h⟩
  | false =>
    refine ⟨{ pendingRecord tt tk pr tm (resolveModel sel) nid now with
               status := "failed",
               error := some ("Tab focus failed: " ++ ferr) }, rfl, ?_⟩
    rw [createDelegation_focus_fail s tt tk pr tm sel nid now ferr hg]
    exact ⟨rfl, (key _).1, fun h => (key _).2.1 h, fun h => (key _).2.2 h⟩

/-- A store already holding 50 delegations `d0 … d49`. -/
def c10full : ServerState :=
  { actionQueue := [], agent := c5agent,
    delegations := (List.range 50).map
      (fun k => { c7rec with id := "d" ++ toString k, status := "completed" }) }

/-- C10 instantiated: creating `del_new` on a full 50-record store keeps
the length at 50, evicts the oldest record `d0`, and the new record sits
at the tail. -/
theorem C10_witness :
    ((createDelegation c10full "tab" "t" none none none "del_new" 7 true "").1.delegations.map
      (fun d => d.id)).length = 50 ∧
    ((createDelegation c10full "tab" "t" none none none "del_new" 7 true "").1.delegations.map
      (fun d => d.id)).head? = some "d1" ∧
    ((createDelegation c10full "tab" "t" none none none "del_new" 7 true "").1.delegations.map
      (fun d => d.id)).getLast? = some "del_new" := by
  obtain ⟨rec, hid, hcap, hite, hle, hfull⟩ :=
    C10_delegations_capped c10full "tab" "t" none none none "del_new" 7 true ""
      (by decide) (by decide)
  have h50 : c10full.delegations.length = 50 := by decide
  rw [hfull h50]
  simp only [List.map_append, List.map_cons, List.map_nil, hid]
  refine ⟨by decide, by decide, by decide⟩

end Gravity
